import Mathlib

/-!
Verification of the BagIt packaging core of dcc-dashboard-service
(`bagitutils.py`, class `BagHandler`).

The development shallowly embeds the pandas dataframe operations used by
`BagHandler` : a dataframe is a list of column names plus a list of rows,
a cell is an optional string (`none` models pandas `NaN`), and every
fallible pandas operation returns `Except PdError`.  The embedding follows
the source line by line; filesystem effects of `create_bag` are modelled by
explicit state passing plus fault injection for the I/O steps.
-/

namespace Bagit

/-- A pandas cell: a string value, or `none` for `NaN`. -/
abbrev Cell := Option String

/-- A pandas `DataFrame`: named columns and rows of cells (row `i`, column
`j` is `rows[i][j]`). -/
structure DFrame where
  cols : List String
  rows : List (List Cell)
deriving DecidableEq

/-- A pandas `Series` with a name, as produced for the participant table. -/
structure PSeries where
  name : String
  cells : List Cell
deriving DecidableEq

/-- Errors raised by the pandas operations used in `bagitutils.py`:
`KeyError` for a missing column label, `IndexError` for an out-of-range
positional index. -/
inductive PdError
  | keyError (k : String)
  | indexError
deriving DecidableEq

/-- Position of the first column with label `c` (pandas label lookup). -/
def colIdx (c : String) : List String → Option Nat
  | [] => none
  | a :: t => if a = c then some 0 else (colIdx c t).map (· + 1)

/-- `df[df[c] == v]`: keep the rows whose cell in column `c` equals the
string `v`; `KeyError` when the column is absent.  A `NaN` cell never
equals `v`, as in pandas. -/
def sliceEq (df : DFrame) (c v : String) : Except PdError DFrame :=
  match colIdx c df.cols with
  | none => .error (.keyError c)
  | some i => .ok { df with rows := df.rows.filter (fun r => r.getD i none == some v) }

/-- `df[cs]`: project onto the listed columns; `KeyError` on the first
absent label. -/
def projectCols (df : DFrame) (cs : List String) : Except PdError DFrame :=
  match cs.find? (fun c => !(df.cols.contains c)) with
  | some c => .error (.keyError c)
  | none =>
      .ok { cols := cs,
            rows := df.rows.map (fun r => cs.map (fun c =>
              match colIdx c df.cols with
              | some i => r.getD i none
              | none => none)) }

/-- `df.rename(columns=m)`: every column label is mapped through the
rename table `m`; labels not in `m` are unchanged, absent keys of `m` are
silently ignored (pandas raises nothing here). -/
def renameCols (df : DFrame) (m : List (String × String)) : DFrame :=
  { df with cols := df.cols.map (fun c =>
      match m.find? (fun p => p.1 == c) with
      | some p => p.2
      | none => c) }

/-- `pd.concat([d1, d2], axis=1, join_axes=[d1.index])` after both frames
were `reset_index`-ed: the result has exactly `d1`'s rows; row `i` is
`d1`'s row `i` extended by `d2`'s row `i` when it exists, and by a row of
`NaN` cells otherwise.  Rows of `d2` beyond `d1`'s length are dropped. -/
def concatJoin1 (d1 d2 : DFrame) : DFrame :=
  { cols := d1.cols ++ d2.cols,
    rows := (List.range d1.rows.length).map (fun i =>
      d1.rows.getD i [] ++ d2.rows.getD i (d2.cols.map (fun _ => (none : Cell)))) }

/-- Helper of `dedupRows`: drop every row already seen, keeping first
occurrences in order. -/
def dedupRowsAux (seen : List (List Cell)) : List (List Cell) → List (List Cell)
  | [] => []
  | r :: rs =>
      if seen.contains r then dedupRowsAux seen rs
      else r :: dedupRowsAux (r :: seen) rs

/-- `df.drop_duplicates(keep='first')` on the row list: exact-duplicate
rows are removed, first occurrence kept (pandas treats `NaN` cells as
equal here, as does equality on `Option`). -/
def dedupRows (rs : List (List Cell)) : List (List Cell) :=
  dedupRowsAux [] rs

/-- `[L[x] for x in idxs]` followed by `df.reindex(columns=...)`: reorder
the columns by position; `IndexError` when an index is out of range, as
for the Python list indexing that builds the new column order. -/
def reorderIdx (df : DFrame) (idxs : List Nat) : Except PdError DFrame :=
  if idxs.all (fun i => decide (i < df.cols.length)) then
    .ok { cols := idxs.map (fun i => df.cols.getD i ""),
          rows := df.rows.map (fun r => idxs.map (fun i => r.getD i none)) }
  else .error .indexError

/-- Replace a space by an underscore, one character of
`x.replace(" ", "_")`. -/
def fixSpace (c : Char) : Char := if c = ' ' then '_' else c

/-- Replace a dot by an underscore, one character of
`x.replace(".", "_")`. -/
def fixDot (c : Char) : Char := if c = '.' then '_' else c

/-- `x.replace(" ", "_")` on a column label. -/
def replaceSpace (s : String) : String := String.mk (s.data.map fixSpace)

/-- `x.replace(".", "_")` on a column label. -/
def replaceDot (s : String) : String := String.mk (s.data.map fixDot)

/-- `x.lower()` on a column label (basic-latin case folding). -/
def lowerCase (s : String) : String := String.mk (s.data.map Char.toLower)

/-- The composite normalization applied to one column name by
`_reformat_headers`: spaces to `_`, dots to `_`, then lower case. -/
def normalizeHeader (s : String) : String := lowerCase (replaceDot (replaceSpace s))

/-- `BagHandler._reformat_headers`: three successive dataframe renames,
replacing spaces, then dots, then lower-casing every column label. -/
def _reformat_headers (df : DFrame) : DFrame :=
  { df with cols := ((df.cols.map replaceSpace).map replaceDot).map lowerCase }

/-- Columns projected out of the `cram` subset in `transform`. -/
def projList : List String :=
  ["file_type", "file_path", "upload_file_id", "file_urls", "file_dos_url"]

/-- The suffix-`2` rename table applied to the projected `cram` columns. -/
def suffix2Map : List (String × String) :=
  [("file_type", "file_type2"), ("file_path", "file_path2"),
   ("upload_file_id", "upload_file_id2"), ("file_urls", "file_urls2"),
   ("file_dos_url", "file_dos_url2")]

/-- The fixed FireCloud column reorder list (`new_index` in the source). -/
def new_index : List Nat :=
  [11, 4, 3, 7, 5, 6, 8, 9, 10, 12, 13, 14,
   0, 1, 2, 18, 19, 15, 16, 17, 20, 21, 22,
   23, 24, 25, 26]

/-- The final rename table applied to the reordered sample table. -/
def sampleRenameMap : List (String × String) :=
  [("sample_uuid", "entity:sample_id"), ("donor_uuid", "participant_id"),
   ("file_type", "file_type1"), ("file_path", "file_path1"),
   ("upload_file_id", "upload_file_id1"), ("file_urls", "file_urls1"),
   ("file_dos_url", "file_dos_url1"), ("metadata.json", "metadata_json")]

/-- First phase of `BagHandler.transform`, up to and including the
column-wise concatenation: slice the `crai` rows, slice and project the
`cram` rows, rename the projection with suffix `2`, and join positionally
on the `crai` subset's index. -/
def transformWide (df : DFrame) : Except PdError DFrame :=
  match sliceEq df "file_type" "crai" with
  | .error e => .error e
  | .ok df1 =>
    match sliceEq df "file_type" "cram" with
    | .error e => .error e
    | .ok dfc =>
      match projectCols dfc projList with
      | .error e => .error e
      | .ok d2a => .ok (concatJoin1 df1 (renameCols d2a suffix2Map))

/-- `BagHandler.transform`: build the wide table, drop duplicate rows,
extract the donor column as the participant series, reorder the columns by
`new_index` and apply the final renames, returning the
`(participant, sample)` pair. -/
def transform (df : DFrame) : Except PdError (PSeries × DFrame) :=
  match transformWide df with
  | .error e => .error e
  | .ok w =>
    match colIdx "donor_uuid" w.cols with
    | none => .error (.keyError "donor_uuid")
    | some i =>
      match reorderIdx { cols := w.cols, rows := dedupRows w.rows } new_index with
      | .error e => .error e
      | .ok s0 =>
          .ok ({ name := "entity:participant_id",
                 cells := (dedupRows w.rows).map (fun r => r.getD i none) },
               renameCols s0 sampleRenameMap)

/-- Does `pre` occur at the head of `l`? -/
def startsWithChars : List Char → List Char → Bool
  | [], _ => true
  | _ :: _, [] => false
  | p :: ps, c :: cs => p == c && startsWithChars ps cs

/-- Does `pat` occur as a contiguous substring of `l`?  Models
`re.search` with a literal pattern. -/
def containsChars (pat : List Char) : List Char → Bool
  | [] => startsWithChars pat []
  | c :: cs => startsWithChars pat (c :: cs) || containsChars pat cs

/-- `re.search('[Ff]ile', s)`: the label contains `file` or `File`. -/
def hasFileWord (s : String) : Bool :=
  containsChars "file".data s.data || containsChars "File".data s.data

/-- Helper of `uniqueCells`: first-occurrence deduplication of a cell
list. -/
def uniqueCellsAux (seen : List Cell) : List Cell → List Cell
  | [] => []
  | c :: cs =>
      if seen.contains c then uniqueCellsAux seen cs
      else c :: uniqueCellsAux (c :: seen) cs

/-- `Series.unique()`: the distinct cell values in order of first
occurrence. -/
def uniqueCells (cs : List Cell) : List Cell :=
  uniqueCellsAux [] cs

/-- `BagHandler.__normalize`: builds the list `L` of file-related labels,
evaluates `len(df['donor_uuid'].unique())` and `df['file_type'].unique()`
(`KeyError` when a column is absent), then loops over `L` computing and
discarding `np.repeat(filetype[0], nrecords)` — `filetype[0]` raising
`IndexError` when the frame has no rows and `L` is nonempty — and finally
returns the stored frame unchanged. -/
def __normalize (df : DFrame) : Except PdError DFrame :=
  let L := df.cols.filter (fun s => hasFileWord s)
  match colIdx "donor_uuid" df.cols with
  | none => .error (.keyError "donor_uuid")
  | some _ =>
    match colIdx "file_type" df.cols with
    | none => .error (.keyError "file_type")
    | some j =>
      let filetype := uniqueCells (df.rows.map (fun r => r.getD j none))
      if !L.isEmpty && filetype.isEmpty then .error .indexError
      else .ok df

/-- The I/O steps of `create_bag` that touch the filesystem and may raise
`IOError`. -/
inductive IoStep
  | makedirs | makeBag | writeParticipant | writeSample | saveBag | writeZip
deriving DecidableEq

/-- An error escaping `create_bag`: a propagated `IOError` from one of the
filesystem steps, or a pandas error raised by `transform`. -/
inductive BagError
  | ioError (step : IoStep)
  | pdError (e : PdError)
deriving DecidableEq

/-- The filesystem state tracked for `create_bag`: whether the temporary
working directory acquired by `tempfile.mkdtemp` still exists. -/
structure FsState where
  tempdExists : Bool
deriving DecidableEq

/-- `BagHandler.create_bag`, with filesystem effects abstracted to the
existence of the temporary directory and fault injection (`ioFail`) for
the I/O steps.  `mkdtemp` creates the directory; the steps then run in
source order (`os.makedirs`, `bagit.make_bag`, `_reformat_headers`,
`transform`, the two `to_csv` writes, `bag.save`, the zip write); any
raised error propagates immediately, exactly as in the source, which
reaches `shutil.rmtree(tempd)` only after every step succeeded. -/
def create_bag (df : DFrame) (ioFail : IoStep → Bool) : Except BagError String × FsState :=
  if ioFail .makedirs then (.error (.ioError .makedirs), ⟨true⟩)
  else if ioFail .makeBag then (.error (.ioError .makeBag), ⟨true⟩)
  else
    match transform (_reformat_headers df) with
    | .error e => (.error (.pdError e), ⟨true⟩)
    | .ok _ =>
      if ioFail .writeParticipant then (.error (.ioError .writeParticipant), ⟨true⟩)
      else if ioFail .writeSample then (.error (.ioError .writeSample), ⟨true⟩)
      else if ioFail .saveBag then (.error (.ioError .saveBag), ⟨true⟩)
      else if ioFail .writeZip then (.error (.ioError .writeZip), ⟨true⟩)
      else (.ok "bag.zip", ⟨false⟩)

/-- No injected I/O fault: every filesystem step succeeds. -/
def noFail : IoStep → Bool := fun _ => false

/-- `Except.isOk` spelled out for the embedding. -/
def isOkRes {ε α : Type} : Except ε α → Bool
  | .ok _ => true
  | .error _ => false

/-- Is the result a raised `KeyError` (the spec's `SchemaMismatch`)? -/
def isKeyErrorRes {α : Type} : Except PdError α → Bool
  | .error (.keyError _) => true
  | _ => false

/-- The six column labels `transform` selects by name: the discriminator,
the four other projected `cram` columns, and the extracted donor column. -/
def selectedCols : List String :=
  ["file_type", "file_path", "upload_file_id", "file_urls", "file_dos_url",
   "donor_uuid"]

/-- Observation: the participant series of a `transform` result. -/
def participantCells : Except PdError (PSeries × DFrame) → Option (List Cell)
  | .ok (p, _) => some p.cells
  | .error _ => none

/-- Observation: the number of sample-table rows of a `transform` result. -/
def sampleRowCount : Except PdError (PSeries × DFrame) → Option Nat
  | .ok (_, s) => some s.rows.length
  | .error _ => none

/-- Observation: cell `i` of the sample-table column labelled `c`. -/
def sampleCellAt (r : Except PdError (PSeries × DFrame)) (c : String) (i : Nat) :
    Option Cell :=
  match r with
  | .ok (_, s) =>
      match colIdx c s.cols with
      | some j => some ((s.rows.getD i []).getD j none)
      | none => none
  | .error _ => none

/-- Observation: the length of the participant series of a `transform`
result. -/
def participantLen : Except PdError (PSeries × DFrame) → Option Nat
  | .ok (p, _) => some p.cells.length
  | .error _ => none

/-- Observation: the number of rows of the wide joined table built by
`transformWide`. -/
def wideRowCount (df : DFrame) : Option Nat :=
  match transformWide df with
  | .ok w => some w.rows.length
  | .error _ => none

/-- Observation: the number of rows of the `crai` subset of a table. -/
def craiCount (df : DFrame) : Option Nat :=
  match sliceEq df "file_type" "crai" with
  | .ok d => some d.rows.length
  | .error _ => none

/-- Observation: the number of rows of the `cram` subset of a table. -/
def cramCount (df : DFrame) : Option Nat :=
  match sliceEq df "file_type" "cram" with
  | .ok d => some d.rows.length
  | .error _ => none

/-! ### Concrete example tables

A realistic 22-column input schema: the wide table built by `transform`
then has exactly `22 + 5 = 27` columns, matching the fixed reorder list. -/

/-- A 22-column input header, all names already normalized. -/
def exCols : List String :=
  ["program", "project", "center_name", "submitter_donor_id",
   "donor_uuid", "submitter_specimen_id", "specimen_uuid", "submitter_sample_id",
   "sample_uuid", "analysis_type", "workflow_name", "file_type",
   "file_path", "upload_file_id", "data_bundle_uuid", "metadata_json",
   "file_urls", "file_dos_url", "experimental_design", "donor_age",
   "donor_sex", "redwood_project"]

/-- Wrap plain strings as cells. -/
def mkRow (vs : List String) : List Cell := vs.map some

/-- A `crai` row over `exCols` with the given donor, sample, path,
identifier and URL fields. -/
def craiRow (d s fp u uu dd : String) : List Cell :=
  mkRow ["P", "PR", "C", "SD", d, "SS", "SP", "SSA", s, "A", "W",
         "crai", fp, u, "B1", "M", uu, dd, "E", "50", "F", "R"]

/-- A `cram` row over `exCols` with the given donor, sample, path,
identifier and URL fields. -/
def cramRow (d s fp u uu dd : String) : List Cell :=
  mkRow ["P", "PR", "C", "SD", d, "SS", "SP", "SSA", s, "A", "W",
         "cram", fp, u, "B1", "M", uu, dd, "E", "50", "F", "R"]

/-- Three `crai` rows but only two `cram` rows: mismatched subset counts,
with the `crai` subset the longer one. -/
def exTable1 : DFrame :=
  { cols := exCols,
    rows := [craiRow "D1" "S1" "a.crai" "U1" "u1" "d1",
             craiRow "D2" "S2" "b.crai" "U3" "u3" "d3",
             craiRow "D3" "S3" "c.crai" "U5" "u5" "d5",
             cramRow "D1" "S1" "a.cram" "U2" "u2" "d2",
             cramRow "D2" "S2" "b.cram" "U4" "u4" "d4"] }

/-- Two file pairs sharing donor `D1` but with distinct samples `S1`,
`S2`. -/
def exTable3 : DFrame :=
  { cols := exCols,
    rows := [craiRow "D1" "S1" "a.crai" "U1" "u1" "d1",
             craiRow "D1" "S2" "b.crai" "U3" "u3" "d3",
             cramRow "D1" "S1" "a.cram" "U2" "u2" "d2",
             cramRow "D1" "S2" "b.cram" "U4" "u4" "d4"] }

/-- The spec's two-row example pair: one `crai` row and one `cram` row
sharing donor `D1` and sample `S1`, the `cram` row with path `a.cram`; the
`crai` row's own path is `a.crai`. -/
def exTable4 : DFrame :=
  { cols := exCols,
    rows := [craiRow "D1" "S1" "a.crai" "U1" "u1" "d1",
             cramRow "D1" "S1" "a.cram" "U2" "u2" "d2"] }

/-- Two identical `crai` rows paired with two identical `cram` rows:
`N = 2` matched pairs whose joined wide rows are exact duplicates. -/
def exTable5 : DFrame :=
  { cols := exCols,
    rows := [craiRow "D1" "S1" "a.crai" "U1" "u1" "d1",
             craiRow "D1" "S1" "a.crai" "U1" "u1" "d1",
             cramRow "D1" "S1" "a.cram" "U2" "u2" "d2",
             cramRow "D1" "S1" "a.cram" "U2" "u2" "d2"] }

/-- `exCols` with `sample_uuid` replaced by `foo`: a rename-map column is
absent while every column `transform` selects by name is present. -/
def exCols7 : List String :=
  ["program", "project", "center_name", "submitter_donor_id",
   "donor_uuid", "submitter_specimen_id", "specimen_uuid", "submitter_sample_id",
   "foo", "analysis_type", "workflow_name", "file_type",
   "file_path", "upload_file_id", "data_bundle_uuid", "metadata_json",
   "file_urls", "file_dos_url", "experimental_design", "donor_age",
   "donor_sex", "redwood_project"]

/-- A table over `exCols7`, one `crai`/`cram` pair. -/
def exTable7 : DFrame :=
  { cols := exCols7,
    rows := [craiRow "D1" "S1" "a.crai" "U1" "u1" "d1",
             cramRow "D1" "S1" "a.cram" "U2" "u2" "d2"] }

/-- Only the seven named columns: the wide table would have 12 columns,
fewer than the 27 the reorder list indexes. -/
def smallTable : DFrame :=
  { cols := ["file_type", "file_path", "upload_file_id", "file_urls",
             "file_dos_url", "donor_uuid", "sample_uuid"],
    rows := [] }

/-- A one-column table: its wide form would also be short, but the
discriminator lookup fails first. -/
def oneColTable : DFrame := { cols := ["x"], rows := [] }

/-- A table that has the `donor_uuid` and `file_type` columns but no
rows. -/
def emptyRowsTable : DFrame := { cols := ["donor_uuid", "file_type"], rows := [] }

/-- The same two columns with one row. -/
def oneRowTable : DFrame :=
  { cols := ["donor_uuid", "file_type"], rows := [[some "D1", some "crai"]] }

/-- A table with no columns at all: `create_bag` on it raises inside
`transform`. -/
def emptyTable : DFrame := { cols := [], rows := [] }

/-! ### The zip step

Paths are modelled as character lists so that the source's string slicing
(`root[pathLength:]`) is `List.drop`.  `create_bag` builds
`bag_dir = tempd + '/' + name` and `data_path = bag_dir + '/data'`. -/

/-- A filesystem path as a character list. -/
abbrev FPath := List Char

/-- The `arcname` computed by `BagHandler.__zipdir` for a file `file` in
directory `root` under the walked root `path`:
`root[pathLength:] + '/' + file`. -/
def zipArcname (path root file : FPath) : FPath :=
  root.drop path.length ++ '/' :: file

/-- The entry name `zipfile.ZipFile.write` stores for an `arcname`: the
library normalizes the name by removing leading path separators. -/
def zipEntryName (arc : FPath) : FPath :=
  arc.dropWhile (fun c => c == '/')

/-- `BagHandler.__zipdir`: walk the given files (directory, filename)
under `path` and record the archive entry written for each. -/
def __zipdir (path : FPath) (files : List (FPath × FPath)) : List FPath :=
  files.map (fun rf => zipEntryName (zipArcname path rf.1 rf.2))

/-- Decidable equality of `Except` results, for evaluating the embedding
on concrete inputs. -/
instance exceptDecEq {e a : Type} [DecidableEq e] [DecidableEq a] :
    DecidableEq (Except e a) := fun x y =>
  match x, y with
  | .error u, .error v =>
      if h : u = v then .isTrue (by rw [h])
      else .isFalse (by intro hh; injection hh; exact h (by assumption))
  | .error u, .ok w => .isFalse (by intro hh; exact Except.noConfusion hh)
  | .ok w, .error v => .isFalse (by intro hh; exact Except.noConfusion hh)
  | .ok w, .ok z =>
      if h : w = z then .isTrue (by rw [h])
      else .isFalse (by intro hh; injection hh; exact h (by assumption))

/-- Modelled from the spec: the files present under the temporary root
when `create_bag` reaches the zip step.  The two payload files are written
by `create_bag` itself into `{tempd}/{name}/data`; the bundle declaration
(`bagit.txt`, `bag-info.txt`) and the checksum manifests
(`manifest-md5.txt`, `tagmanifest-md5.txt`) are produced at
`{tempd}/{name}` by the external `bagit` library (`make_bag`,
`bag.save(manifests=True)`), which is not part of this repository. -/
def bagTreeFiles (tempd name : FPath) : List (FPath × FPath) :=
  [(tempd ++ '/' :: name, "bagit.txt".data),
   (tempd ++ '/' :: name, "bag-info.txt".data),
   (tempd ++ '/' :: name, "manifest-md5.txt".data),
   (tempd ++ '/' :: name, "tagmanifest-md5.txt".data),
   (tempd ++ '/' :: (name ++ '/' :: "data".data), "participant.tsv".data),
   (tempd ++ '/' :: (name ++ '/' :: "data".data), "sample.tsv".data)]

end Bagit

namespace Bagit


theorem colIdx_eq_none_of_not_mem {c : String} {l : List String} (h : c ∉ l) :
    colIdx c l = none := by
  induction l with
  | nil => rfl
  | cons a t ih =>
      simp only [List.mem_cons, not_or] at h
      simp [colIdx, Ne.symm h.1, ih h.2]

theorem colIdx_isSome_of_mem {c : String} {l : List String} (h : c ∈ l) :
    ∃ i, colIdx c l = some i := by
  induction l with
  | nil => cases h
  | cons a t ih =>
      by_cases ha : a = c
      · exact ⟨0, by simp [colIdx, ha]⟩
      · rcases ih (by
          rcases List.mem_cons.mp h with h1 | h2
          · exact absurd h1.symm ha
          · exact h2) with ⟨i, hi⟩
        exact ⟨i + 1, by simp [colIdx, ha, hi]⟩

theorem dedupRowsAux_length_le (seen : List (List Cell)) (l : List (List Cell)) :
    (dedupRowsAux seen l).length ≤ l.length := by
  induction l generalizing seen with
  | nil => simp [dedupRowsAux]
  | cons r rs ih =>
      unfold dedupRowsAux
      split
      · exact le_trans (ih seen) (Nat.le_succ _)
      · simpa using ih (r :: seen)

theorem dedupRows_length_le (l : List (List Cell)) :
    (dedupRows l).length ≤ l.length :=
  dedupRowsAux_length_le [] l

theorem char_toNat_inj {a b : Char} (h : a.toNat = b.toNat) : a = b :=
  Char.ext (UInt32.toNat.inj h)

theorem toNat_ofNat_valid (n : Nat) (h : n.isValidChar) : (Char.ofNat n).toNat = n := by
  rw [Char.ofNat, dif_pos h]
  rfl

theorem toLower_idem (c : Char) : c.toLower.toLower = c.toLower := by
  unfold Char.toLower
  by_cases h : c.toNat ≥ 65 ∧ c.toNat ≤ 90
  · rw [if_pos h]
    have hv : (c.toNat + 32).isValidChar := by
      left; omega
    rw [toNat_ofNat_valid _ hv, if_neg (by omega)]
  · rw [if_neg h, if_neg h]

theorem toLower_ne {c d : Char} (hd : ¬ (65 ≤ d.toNat ∧ d.toNat ≤ 122)) (hne : c ≠ d) :
    Char.toLower c ≠ d := by
  intro heq
  have ht := congrArg Char.toNat heq
  unfold Char.toLower at ht
  by_cases h : c.toNat ≥ 65 ∧ c.toNat ≤ 90
  · rw [if_pos h, toNat_ofNat_valid _ (by left; omega)] at ht
    omega
  · rw [if_neg h] at ht
    exact hne (char_toNat_inj ht)

theorem fixSpace_ne_space (c : Char) : fixSpace c ≠ ' ' := by
  unfold fixSpace
  split
  · decide
  · assumption

theorem fixDot_ne_space {c : Char} (h : c ≠ ' ') : fixDot c ≠ ' ' := by
  unfold fixDot
  split
  · decide
  · exact h

theorem fixDot_ne_dot (c : Char) : fixDot c ≠ '.' := by
  unfold fixDot
  split
  · decide
  · assumption

theorem fixSpace_eq_of_ne {c : Char} (h : c ≠ ' ') : fixSpace c = c := if_neg h

theorem fixDot_eq_of_ne {c : Char} (h : c ≠ '.') : fixDot c = c := if_neg h

theorem headerChar_idem (c : Char) :
    Char.toLower (fixDot (fixSpace (Char.toLower (fixDot (fixSpace c))))) =
      Char.toLower (fixDot (fixSpace c)) := by
  have h2 : fixDot (fixSpace c) ≠ ' ' := fixDot_ne_space (fixSpace_ne_space c)
  have h3 : fixDot (fixSpace c) ≠ '.' := fixDot_ne_dot _
  have h4 : Char.toLower (fixDot (fixSpace c)) ≠ ' ' := toLower_ne (by decide) h2
  have h5 : Char.toLower (fixDot (fixSpace c)) ≠ '.' := toLower_ne (by decide) h3
  rw [fixSpace_eq_of_ne h4, fixDot_eq_of_ne h5, toLower_idem]

theorem normalizeHeader_mk (l : List Char) :
    normalizeHeader (String.mk l)
      = String.mk (l.map (fun c => Char.toLower (fixDot (fixSpace c)))) := by
  unfold normalizeHeader lowerCase replaceDot replaceSpace
  simp only [List.map_map]
  rfl

theorem map_headerChar_idem (l : List Char) :
    ((l.map (fun c => Char.toLower (fixDot (fixSpace c)))).map
        (fun c => Char.toLower (fixDot (fixSpace c))))
      = l.map (fun c => Char.toLower (fixDot (fixSpace c))) := by
  induction l with
  | nil => rfl
  | cons c t ih => simp only [List.map_cons, ih, headerChar_idem c]

theorem normalizeHeader_idem (s : String) :
    normalizeHeader (normalizeHeader s) = normalizeHeader s := by
  obtain ⟨l⟩ := s
  have h1 : normalizeHeader (String.mk l)
      = String.mk (l.map (fun c => Char.toLower (fixDot (fixSpace c)))) :=
    normalizeHeader_mk l
  rw [h1, normalizeHeader_mk (l.map (fun c => Char.toLower (fixDot (fixSpace c))))]
  exact congrArg String.mk (map_headerChar_idem l)

theorem _reformat_headers_eq (df : DFrame) :
    _reformat_headers df = { df with cols := df.cols.map normalizeHeader } := by
  unfold _reformat_headers
  simp only [List.map_map]
  rfl


theorem map_normalizeHeader_idem (l : List String) :
    (l.map normalizeHeader).map normalizeHeader = l.map normalizeHeader := by
  induction l with
  | nil => rfl
  | cons a t ih => simp only [List.map_cons, ih, normalizeHeader_idem a]

theorem _reformat_headers_idem (df : DFrame) :
    _reformat_headers (_reformat_headers df) = _reformat_headers df := by
  rw [_reformat_headers_eq df,
    _reformat_headers_eq { df with cols := df.cols.map normalizeHeader }]
  show DFrame.mk ((df.cols.map normalizeHeader).map normalizeHeader) df.rows
    = DFrame.mk (df.cols.map normalizeHeader) df.rows
  rw [map_normalizeHeader_idem]

theorem sliceEq_err_of_not_mem (df : DFrame) (c v : String) (h : c ∉ df.cols) :
    sliceEq df c v = .error (.keyError c) := by
  unfold sliceEq
  rw [colIdx_eq_none_of_not_mem h]

theorem sliceEq_ok_of_colIdx (df : DFrame) (c v : String) (i : Nat)
    (h : colIdx c df.cols = some i) :
    sliceEq df c v = .ok { df with rows := df.rows.filter (fun r => r.getD i none == some v) } := by
  unfold sliceEq
  rw [h]

theorem sliceEq_ok_cols {df d : DFrame} {c v : String} (h : sliceEq df c v = .ok d) :
    d.cols = df.cols := by
  unfold sliceEq at h
  split at h
  · exact absurd h (by simp)
  · injection h with h1
    rw [← h1]

theorem projectCols_ok_of_all (df : DFrame) (cs : List String)
    (h : ∀ x ∈ cs, df.cols.contains x = true) :
    projectCols df cs = .ok
      { cols := cs,
        rows := df.rows.map (fun r => cs.map (fun c =>
          match colIdx c df.cols with
          | some i => r.getD i none
          | none => none)) } := by
  unfold projectCols
  rw [List.find?_eq_none.mpr (by intro x hx; rw [h x hx]; decide)]

theorem projectCols_err_of_missing (df : DFrame) (cs : List String)
    (h : ¬ ∀ x ∈ cs, df.cols.contains x = true) :
    ∃ c, projectCols df cs = .error (.keyError c) := by
  unfold projectCols
  cases hf : cs.find? (fun c => !(df.cols.contains c)) with
  | none =>
      exfalso
      apply h
      intro x hx
      have := List.find?_eq_none.mp hf x hx
      simpa using this
  | some c => exact ⟨c, rfl⟩

theorem reorderIdx_cases (df : DFrame) (idxs : List Nat) :
    (∃ d, reorderIdx df idxs = .ok d) ∨ reorderIdx df idxs = .error .indexError := by
  unfold reorderIdx
  split
  · exact .inl ⟨_, rfl⟩
  · exact .inr rfl

theorem reorderIdx_ok_rows {df s0 : DFrame} {idxs : List Nat}
    (h : reorderIdx df idxs = .ok s0) :
    s0.rows = df.rows.map (fun r => idxs.map (fun i => r.getD i none)) := by
  unfold reorderIdx at h
  split at h
  · injection h with h1
    rw [← h1]
  · exact absurd h (by simp)

theorem new_index_all_iff (n : Nat) :
    (new_index.all (fun i => decide (i < n)) = true) ↔ 27 ≤ n := by
  simp [new_index]
  omega

theorem concatJoin1_rows_length (d1 d2 : DFrame) :
    (concatJoin1 d1 d2).rows.length = d1.rows.length := by
  simp [concatJoin1]

theorem transformWide_ok_shape {df w : DFrame} (h : transformWide df = .ok w) :
    ∃ d1 dc d2a, sliceEq df "file_type" "crai" = .ok d1 ∧
      sliceEq df "file_type" "cram" = .ok dc ∧
      projectCols dc projList = .ok d2a ∧
      w = concatJoin1 d1 (renameCols d2a suffix2Map) := by
  unfold transformWide at h
  split at h
  · exact absurd h (by simp)
  next d1 h1 =>
    split at h
    · exact absurd h (by simp)
    next dc h2 =>
      split at h
      · exact absurd h (by simp)
      next d2a h3 =>
        injection h with h4
        exact ⟨d1, dc, d2a, h1, h2, h3, h4.symm⟩

theorem transform_ok_shape {df : DFrame} {p : PSeries} {s : DFrame}
    (h : transform df = .ok (p, s)) :
    ∃ w i s0, transformWide df = .ok w ∧
      colIdx "donor_uuid" w.cols = some i ∧
      reorderIdx { cols := w.cols, rows := dedupRows w.rows } new_index = .ok s0 ∧
      p = { name := "entity:participant_id",
            cells := (dedupRows w.rows).map (fun r => r.getD i none) } ∧
      s = renameCols s0 sampleRenameMap := by
  unfold transform at h
  split at h
  · exact absurd h (by simp)
  next w htw =>
    split at h
    · exact absurd h (by simp)
    next i hci =>
      split at h
      · exact absurd h (by simp)
      next s0 hro =>
        injection h with hpair
        injection hpair with hp hs
        exact ⟨w, i, s0, htw, hci, hro, hp.symm, hs.symm⟩


/-- C1 (amended). A primary/secondary row-count mismatch never makes the
join raise: whenever `transformWide` returns a wide table at all, that
table has exactly one row per `crai` (secondary) row of the input - `cram`
rows beyond the `crai` count are dropped and missing `cram` rows are
padded with `NaN`, so the join follows the `crai` subset, not the shorter
subset. -/
theorem c1_join_rows_follow_crai_subset (df : DFrame) :
    wideRowCount df = none ∨ wideRowCount df = craiCount df := by
  cases htw : transformWide df with
  | error e => left; simp [wideRowCount, htw]
  | ok w =>
      right
      obtain ⟨d1, dc, d2a, h1, hc, hpj, hw⟩ := transformWide_ok_shape htw
      rw [show wideRowCount df = some w.rows.length by simp [wideRowCount, htw]]
      rw [show craiCount df = some d1.rows.length by simp [craiCount, h1]]
      rw [hw, concatJoin1_rows_length]

/-- C5 (amended). For any input, the sample table `transform` returns has
at most as many rows as the `crai` subset (so at most `N` for `N` matched
pairs): duplicate removal happens inside `transform`, before the table is
returned, so the returned table can be strictly smaller than `N`. -/
theorem c5_sample_rows_le_pair_count (df : DFrame) :
    sampleRowCount (transform df) = none ∨
      ∃ n k, craiCount df = some n ∧ sampleRowCount (transform df) = some k ∧ k ≤ n := by
  cases ht : transform df with
  | error e => left; simp [sampleRowCount, ht]
  | ok ps =>
      right
      obtain ⟨p, s⟩ := ps
      obtain ⟨w, i, s0, htw, hci, hro, hp, hs⟩ := transform_ok_shape ht
      obtain ⟨d1, dc, d2a, h1, hc, hpj, hw⟩ := transformWide_ok_shape htw
      refine ⟨d1.rows.length, s.rows.length, by simp [craiCount, h1],
        by simp [sampleRowCount, ht], ?_⟩
      subst hs
      have h5 := reorderIdx_ok_rows hro
      calc (renameCols s0 sampleRenameMap).rows.length
          = s0.rows.length := rfl
        _ = (dedupRows w.rows).length := by rw [h5]; simp
        _ ≤ w.rows.length := dedupRows_length_le _
        _ = d1.rows.length := by rw [hw, concatJoin1_rows_length]

/-- C3 (amended). The participant series and the sample table returned by
`transform` always have the same number of rows, entry `i` of the series
being the donor identifier of sample row `i`; the series is not
deduplicated, so a donor with several samples appears several times. -/
theorem c3_participant_rows_eq_sample_rows (df : DFrame) :
    participantLen (transform df) = sampleRowCount (transform df) := by
  cases ht : transform df with
  | error e => simp [participantLen, sampleRowCount]
  | ok ps =>
      obtain ⟨p, s⟩ := ps
      obtain ⟨w, i, s0, htw, hci, hro, hp, hs⟩ := transform_ok_shape ht
      subst hp
      subst hs
      have h5 := reorderIdx_ok_rows hro
      simp [participantLen, sampleRowCount]
      show (dedupRows w.rows).length = (renameCols s0 sampleRenameMap).rows.length
      calc (dedupRows w.rows).length
          = s0.rows.length := by rw [h5]; simp
        _ = (renameCols s0 sampleRenameMap).rows.length := rfl


theorem uniqueCells_cons_isEmpty (c : Cell) (cs : List Cell) :
    (uniqueCells (c :: cs)).isEmpty = false := by
  simp [uniqueCells, uniqueCellsAux]

/-- C10 (amended). `__normalize` returns the stored table unchanged for
every table that has the `donor_uuid` and `file_type` columns and at
least one row; on a zero-row table it instead raises an `IndexError` at
`filetype[0]`, so the identity claim needs the nonempty hypothesis. -/
theorem c10_normalize_identity (df : DFrame) (hd : "donor_uuid" ∈ df.cols)
    (hf : "file_type" ∈ df.cols) (hr : df.rows ≠ []) :
    __normalize df = .ok df := by
  obtain ⟨i, hi⟩ := colIdx_isSome_of_mem hd
  obtain ⟨j, hj⟩ := colIdx_isSome_of_mem hf
  unfold __normalize
  rw [hi, hj]
  cases hrows : df.rows with
  | nil => exact absurd hrows hr
  | cons r rs =>
      show (if (!(List.filter (fun s => hasFileWord s) df.cols).isEmpty &&
            (uniqueCells (List.map (fun r => r.getD j none) (r :: rs))).isEmpty) = true
          then Except.error PdError.indexError else Except.ok df) = Except.ok df
      rw [List.map_cons, uniqueCells_cons_isEmpty, Bool.and_false]
      rfl

theorem c10_counterexample :
    __normalize emptyRowsTable = .error .indexError ∧
      ¬ __normalize emptyRowsTable = .ok emptyRowsTable := by
  constructor
  · rfl
  · decide


/-- C2 (amended). The temporary working directory is gone after a
successful invocation of `create_bag`, and still exists after any failing
one: the source reaches `shutil.rmtree` only on the all-steps-succeeded
path, so cleanup happens exactly when the invocation returns normally. -/
theorem c2_tempdir_exists_iff_failure (df : DFrame) (f : IoStep → Bool) :
    (create_bag df f).2.tempdExists = !(isOkRes (create_bag df f).1) := by
  unfold create_bag
  split
  · rfl
  · split
    · rfl
    · split
      · rfl
      · split
        · rfl
        · split
          · rfl
          · split
            · rfl
            · split
              · rfl
              · rfl

theorem c2_counterexample :
    (create_bag emptyTable noFail).1 = .error (.pdError (.keyError "file_type")) ∧
      (create_bag emptyTable noFail).2.tempdExists = true := ⟨rfl, rfl⟩

theorem c1_counterexample :
    craiCount exTable1 = some 3 ∧ cramCount exTable1 = some 2 ∧
      isOkRes (transform exTable1) = true ∧
      sampleRowCount (transform exTable1) = some 3 ∧ (3 : Nat) ≠ 2 :=
  ⟨rfl, rfl, rfl, rfl, by decide⟩

theorem c3_counterexample :
    participantCells (transform exTable3) = some [some "D1", some "D1"] ∧
      ¬ ((participantCells (transform exTable3)).getD []).Nodup := by
  refine ⟨rfl, ?_⟩
  rw [show (participantCells (transform exTable3)).getD []
      = [some "D1", some "D1"] from rfl]
  decide

/-- C4 (amended). On the spec example pair, `transform` returns
ParticipantTable `[D1]` and one sample row with `entity:sample_id = S1`
and `participant_id = D1`, but the `cram` path `a.cram` lands in
`file_path2`; `file_path1` holds the `crai` row own path. -/
theorem c4_example_scenario :
    participantCells (transform exTable4) = some [some "D1"] ∧
      sampleRowCount (transform exTable4) = some 1 ∧
      sampleCellAt (transform exTable4) "entity:sample_id" 0 = some (some "S1") ∧
      sampleCellAt (transform exTable4) "participant_id" 0 = some (some "D1") ∧
      sampleCellAt (transform exTable4) "file_path2" 0 = some (some "a.cram") ∧
      sampleCellAt (transform exTable4) "file_path1" 0 = some (some "a.crai") :=
  ⟨rfl, rfl, rfl, rfl, rfl, rfl⟩

theorem c4_counterexample :
    sampleCellAt (transform exTable4) "file_path1" 0 = some (some "a.crai") ∧
      (some (some "a.crai") : Option Cell) ≠ some (some "a.cram") :=
  ⟨rfl, by decide⟩

theorem c5_counterexample :
    craiCount exTable5 = some 2 ∧ cramCount exTable5 = some 2 ∧
      sampleRowCount (transform exTable5) = some 1 ∧ (1 : Nat) ≠ 2 :=
  ⟨rfl, rfl, rfl, by decide⟩

theorem c7_counterexample :
    (sampleRenameMap.find? (fun p => p.1 == "sample_uuid")).isSome = true ∧
      exTable7.cols.contains "sample_uuid" = false ∧
      isOkRes (transform exTable7) = true :=
  ⟨rfl, rfl, rfl⟩

theorem c9_counterexample :
    oneColTable.cols.length + 5 < 27 ∧
      transform oneColTable = .error (.keyError "file_type") ∧
      transform oneColTable ≠ .error .indexError :=
  ⟨by decide, rfl, by decide⟩


theorem transformWide_eval_slice_err (df : DFrame) (e : PdError)
    (h : sliceEq df "file_type" "crai" = .error e) :
    transformWide df = .error e := by
  unfold transformWide
  split
  next e' h' => rw [h] at h'; injection h' with h2; subst h2; rfl
  next d1 h' => rw [h] at h'; exact absurd h' (by simp)

theorem transformWide_eval_proj_err (df d1 dc : DFrame) (e : PdError)
    (h1 : sliceEq df "file_type" "crai" = .ok d1)
    (h2 : sliceEq df "file_type" "cram" = .ok dc)
    (h3 : projectCols dc projList = .error e) :
    transformWide df = .error e := by
  unfold transformWide
  split
  next e' h' => rw [h1] at h'; exact absurd h' (by simp)
  next d1' h' =>
    rw [h1] at h'
    injection h' with hq
    subst hq
    split
    next e' h'' => rw [h2] at h''; exact absurd h'' (by simp)
    next dc' h'' =>
      rw [h2] at h''
      injection h'' with hq2
      subst hq2
      split
      next e' h3' => rw [h3] at h3'; injection h3' with hq3; subst hq3; rfl
      next d2a h3' => rw [h3] at h3'; exact absurd h3' (by simp)

theorem transformWide_eval_ok (df d1 dc d2a : DFrame)
    (h1 : sliceEq df "file_type" "crai" = .ok d1)
    (h2 : sliceEq df "file_type" "cram" = .ok dc)
    (h3 : projectCols dc projList = .ok d2a) :
    transformWide df = .ok (concatJoin1 d1 (renameCols d2a suffix2Map)) := by
  unfold transformWide
  split
  next e' h' => rw [h1] at h'; exact absurd h' (by simp)
  next d1' h' =>
    rw [h1] at h'
    injection h' with hq
    subst hq
    split
    next e' h'' => rw [h2] at h''; exact absurd h'' (by simp)
    next dc' h'' =>
      rw [h2] at h''
      injection h'' with hq2
      subst hq2
      split
      next e' h3' => rw [h3] at h3'; exact absurd h3' (by simp)
      next d2a' h3' => rw [h3] at h3'; injection h3' with hq3; subst hq3; rfl

theorem transform_eval_wide_err (df : DFrame) (e : PdError)
    (h : transformWide df = .error e) : transform df = .error e := by
  unfold transform
  split
  next e' h' => rw [h] at h'; injection h' with h2; subst h2; rfl
  next w h' => rw [h] at h'; exact absurd h' (by simp)

theorem transform_eval_nodonor (df w : DFrame)
    (htw : transformWide df = .ok w) (hj : colIdx "donor_uuid" w.cols = none) :
    transform df = .error (.keyError "donor_uuid") := by
  unfold transform
  split
  next e' h' => rw [htw] at h'; exact absurd h' (by simp)
  next w' h' =>
    rw [htw] at h'
    injection h' with hq
    subst hq
    split
    next h2 => rfl
    next j' h2 => rw [hj] at h2; exact absurd h2 (by simp)

theorem transform_eval_reorder_err (df w : DFrame) (j : Nat)
    (htw : transformWide df = .ok w) (hj : colIdx "donor_uuid" w.cols = some j)
    (hd : reorderIdx { cols := w.cols, rows := dedupRows w.rows } new_index
      = .error .indexError) :
    transform df = .error .indexError := by
  unfold transform
  split
  next e' h' => rw [htw] at h'; exact absurd h' (by simp)
  next w' h' =>
    rw [htw] at h'
    injection h' with hq
    subst hq
    split
    next h2 => rw [hj] at h2; exact absurd h2 (by simp)
    next j' h2 =>
      rw [hj] at h2
      injection h2 with hq2
      subst hq2
      split
      next e' h3 =>
        rw [hd] at h3
        injection h3 with hq3
        subst hq3
        rfl
      next d' h3 => rw [hd] at h3; exact absurd h3 (by simp)

theorem transform_eval_ok (df w : DFrame) (j : Nat) (d : DFrame)
    (htw : transformWide df = .ok w) (hj : colIdx "donor_uuid" w.cols = some j)
    (hd : reorderIdx { cols := w.cols, rows := dedupRows w.rows } new_index = .ok d) :
    transform df = .ok (PSeries.mk "entity:participant_id"
      ((dedupRows w.rows).map (fun r => r.getD j none)),
      renameCols d sampleRenameMap) := by
  unfold transform
  split
  next e' h' => rw [htw] at h'; exact absurd h' (by simp)
  next w' h' =>
    rw [htw] at h'
    injection h' with hq
    subst hq
    split
    next h2 => rw [hj] at h2; exact absurd h2 (by simp)
    next j' h2 =>
      rw [hj] at h2
      injection h2 with hq2
      subst hq2
      split
      next e' h3 => rw [hd] at h3; exact absurd h3 (by simp)
      next d' h3 => rw [hd] at h3; injection h3 with hq3; subst hq3; rfl

theorem transformWide_ok_of_present (df : DFrame) (i : Nat)
    (hi : colIdx "file_type" df.cols = some i)
    (hproj : ∀ x ∈ projList, df.cols.contains x = true) :
    ∃ w, transformWide df = .ok w ∧
      w.cols = df.cols ++ ["file_type2", "file_path2", "upload_file_id2",
        "file_urls2", "file_dos_url2"] := by
  have h1 := sliceEq_ok_of_colIdx df "file_type" "crai" i hi
  have h2 := sliceEq_ok_of_colIdx df "file_type" "cram" i hi
  have h3 := projectCols_ok_of_all
    { df with rows := df.rows.filter (fun r => r.getD i none == some "cram") }
    projList hproj
  exact ⟨_, transformWide_eval_ok df _ _ _ h1 h2 h3, rfl⟩


theorem contains_eq_false_of_not_mem {c : String} {l : List String} (h : c ∉ l) :
    l.contains c = false := by
  cases hb : l.contains c
  · rfl
  · exact absurd (List.elem_iff.mp hb) h

theorem projList_sub_selected : ∀ x ∈ projList, x ∈ selectedCols := by
  intro x hx
  simp only [projList, List.mem_cons, List.not_mem_nil, or_false] at hx
  rcases hx with rfl | rfl | rfl | rfl | rfl <;> simp [selectedCols]

/-- C7 (amended). `transform` raises a `KeyError` (the spec
`SchemaMismatch`) exactly when one of the six columns it selects by name
(`file_type`, `file_path`, `upload_file_id`, `file_urls`, `file_dos_url`,
`donor_uuid`) is absent; a column referenced only by a rename map (such as
`sample_uuid`) may be absent without raising, since pandas `rename`
ignores missing keys. -/
theorem c7_schema_mismatch_iff_selected_missing (df : DFrame) :
    isKeyErrorRes (transform df) = !(selectedCols.all (fun c => df.cols.contains c)) := by
  by_cases hft : "file_type" ∈ df.cols
  · obtain ⟨i, hi⟩ := colIdx_isSome_of_mem hft
    by_cases hproj : ∀ x ∈ projList, df.cols.contains x = true
    · obtain ⟨w, htw, hwcols⟩ := transformWide_ok_of_present df i hi hproj
      by_cases hdu : "donor_uuid" ∈ df.cols
      · have hall : selectedCols.all (fun c => df.cols.contains c) = true := by
          apply List.all_eq_true.mpr
          intro x hx
          simp only [selectedCols, List.mem_cons, List.not_mem_nil, or_false] at hx
          rcases hx with rfl | rfl | rfl | rfl | rfl | rfl
          · exact List.elem_iff.mpr hft
          · exact hproj _ (by simp [projList])
          · exact hproj _ (by simp [projList])
          · exact hproj _ (by simp [projList])
          · exact hproj _ (by simp [projList])
          · exact List.elem_iff.mpr hdu
        have hduw : "donor_uuid" ∈ w.cols := by
          rw [hwcols]
          exact List.mem_append_left _ hdu
        obtain ⟨j, hj⟩ := colIdx_isSome_of_mem hduw
        rcases reorderIdx_cases { cols := w.cols, rows := dedupRows w.rows } new_index
          with ⟨d, hd⟩ | hd
        · rw [transform_eval_ok df w j d htw hj hd, hall]
          rfl
        · rw [transform_eval_reorder_err df w j htw hj hd, hall]
          rfl
      · have hndw : "donor_uuid" ∉ w.cols := by
          rw [hwcols]
          intro hmem
          rcases List.mem_append.mp hmem with hmem1 | hmem2
          · exact hdu hmem1
          · simp at hmem2
        rw [transform_eval_nodonor df w htw (colIdx_eq_none_of_not_mem hndw)]
        have hcf : df.cols.contains "donor_uuid" = false :=
          contains_eq_false_of_not_mem hdu
        simp only [isKeyErrorRes, selectedCols, List.all_cons, List.all_nil, hcf,
          Bool.false_and, Bool.and_false, Bool.not_false]
    · have hproj' : ¬ ∀ x ∈ projList,
          ({ df with rows := df.rows.filter (fun r => r.getD i none == some "cram") }
            : DFrame).cols.contains x = true := hproj
      obtain ⟨c, hc⟩ := projectCols_err_of_missing _ projList hproj'
      have htw := transformWide_eval_proj_err df _ _ (.keyError c)
        (sliceEq_ok_of_colIdx df "file_type" "crai" i hi)
        (sliceEq_ok_of_colIdx df "file_type" "cram" i hi) hc
      rw [transform_eval_wide_err df _ htw]
      have hallf : selectedCols.all (fun c => df.cols.contains c) = false := by
        cases hb : selectedCols.all (fun c => df.cols.contains c)
        · rfl
        · exfalso
          apply hproj
          intro x hx
          exact List.all_eq_true.mp hb x (projList_sub_selected x hx)
      rw [hallf]
      rfl
  · have h1 := sliceEq_err_of_not_mem df "file_type" "crai" hft
    rw [transform_eval_wide_err df _ (transformWide_eval_slice_err df _ h1)]
    have hcf : df.cols.contains "file_type" = false := contains_eq_false_of_not_mem hft
    simp only [isKeyErrorRes, selectedCols, List.all_cons, List.all_nil, hcf,
      Bool.false_and, Bool.not_false]


theorem reorderIdx_ok_of_ge (df : DFrame) (h27 : 27 ≤ df.cols.length) :
    ∃ d, reorderIdx df new_index = .ok d := by
  unfold reorderIdx
  rw [if_pos ((new_index_all_iff _).mpr h27)]
  exact ⟨_, rfl⟩

theorem reorderIdx_err_of_lt (df : DFrame) (h27 : df.cols.length < 27) :
    reorderIdx df new_index = .error .indexError := by
  unfold reorderIdx
  rw [if_neg]
  intro hc
  exact absurd ((new_index_all_iff _).mp hc) (by omega)

/-- C9 (amended). When the six selected columns are present, `transform`
succeeds precisely when the wide table (input columns plus the five
suffix-2 columns) has at least 27 columns; with fewer it raises an
`IndexError` from the fixed reorder list. (When a selected column is
absent the failure is a `KeyError` instead, so the literal claim that any
short table raises an index error is false.) -/
theorem c9_reorder_bound (df : DFrame)
    (h : selectedCols.all (fun c => df.cols.contains c) = true) :
    (df.cols.length + 5 < 27 ∧ transform df = .error .indexError) ∨
      (27 ≤ df.cols.length + 5 ∧ isOkRes (transform df) = true) := by
  have hm := List.all_eq_true.mp h
  have hft : "file_type" ∈ df.cols := List.elem_iff.mp (hm _ (by simp [selectedCols]))
  have hdu : "donor_uuid" ∈ df.cols := List.elem_iff.mp (hm _ (by simp [selectedCols]))
  have hproj : ∀ x ∈ projList, df.cols.contains x = true := fun x hx =>
    hm x (projList_sub_selected x hx)
  obtain ⟨i, hi⟩ := colIdx_isSome_of_mem hft
  obtain ⟨w, htw, hwcols⟩ := transformWide_ok_of_present df i hi hproj
  have hlenw : w.cols.length = df.cols.length + 5 := by
    rw [hwcols]
    simp
  have hduw : "donor_uuid" ∈ w.cols := by
    rw [hwcols]
    exact List.mem_append_left _ hdu
  obtain ⟨j, hj⟩ := colIdx_isSome_of_mem hduw
  by_cases hlen : 27 ≤ df.cols.length + 5
  · right
    refine ⟨hlen, ?_⟩
    obtain ⟨d, hd⟩ := reorderIdx_ok_of_ge { cols := w.cols, rows := dedupRows w.rows }
      (by simpa [hlenw] using hlen)
    rw [transform_eval_ok df w j d htw hj hd]
    rfl
  · left
    refine ⟨by omega, ?_⟩
    have hd := reorderIdx_err_of_lt { cols := w.cols, rows := dedupRows w.rows }
      (by simp [hlenw]; omega)
    exact transform_eval_reorder_err df w j htw hj hd

/-- C8. Every file under the temporary root is written to the archive
under a name relative to that root: the bundle declaration and manifest
files appear at `name/...` and the payload at `name/data/participant.tsv`
and `name/data/sample.tsv`, for any bundle name not starting with a
separator. -/
theorem c8_zip_entries_relative (tempd name : FPath) (h1 : name ≠ []) (h2 : name.head? ≠ some '/') :
    __zipdir tempd (bagTreeFiles tempd name) =
      [name ++ '/' :: "bagit.txt".data,
       name ++ '/' :: "bag-info.txt".data,
       name ++ '/' :: "manifest-md5.txt".data,
       name ++ '/' :: "tagmanifest-md5.txt".data,
       name ++ '/' :: ("data".data ++ '/' :: "participant.tsv".data),
       name ++ '/' :: ("data".data ++ '/' :: "sample.tsv".data)] := by
  cases name with
  | nil => exact absurd rfl h1
  | cons c cs =>
      have hc : (c == '/') = false := by
        simp only [List.head?] at h2
        simp only [beq_eq_false_iff_ne, ne_eq]
        intro hcc
        exact h2 (by rw [hcc])
      simp [__zipdir, bagTreeFiles, zipArcname, zipEntryName, List.drop_left,
        List.dropWhile_cons, hc]


/-- C6. The column-name normalization of `_reformat_headers` is a total
function of the name and is idempotent, both per name and on a whole
frame: a second normalization pass changes nothing. -/
theorem c6_header_normalization_idempotent (s : String) (df : DFrame) :
    normalizeHeader (normalizeHeader s) = normalizeHeader s ∧
      _reformat_headers (_reformat_headers df) = _reformat_headers df :=
  ⟨normalizeHeader_idem s, _reformat_headers_idem df⟩

/-- Witness for C8: concrete temporary root and bundle name. -/
theorem c8_witness :
    __zipdir "/tmp/tb".data (bagTreeFiles "/tmp/tb".data "bag".data) =
      ["bag".data ++ '/' :: "bagit.txt".data,
       "bag".data ++ '/' :: "bag-info.txt".data,
       "bag".data ++ '/' :: "manifest-md5.txt".data,
       "bag".data ++ '/' :: "tagmanifest-md5.txt".data,
       "bag".data ++ '/' :: ("data".data ++ '/' :: "participant.tsv".data),
       "bag".data ++ '/' :: ("data".data ++ '/' :: "sample.tsv".data)] :=
  c8_zip_entries_relative "/tmp/tb".data "bag".data (by decide) (by decide)

/-- Witness for C9: the seven-column table has all six selected columns
and a wide form of 12 columns, so it falls in the index-error branch. -/
theorem c9_witness :
    (smallTable.cols.length + 5 < 27 ∧ transform smallTable = .error .indexError) ∨
      (27 ≤ smallTable.cols.length + 5 ∧ isOkRes (transform smallTable) = true) :=
  c9_reorder_bound smallTable (by decide)

/-- Witness for C10: a one-row table with both columns is returned
unchanged. -/
theorem c10_witness : __normalize oneRowTable = .ok oneRowTable :=
  c10_normalize_identity oneRowTable (by decide) (by decide) (by decide)

end Bagit
